import Mathlib

/-!
Verification of `torchpack/callbacks/writers.py`: the `Writer` base class and
its three subclasses `ConsoleWriter`, `TFEventWriter`, `JSONWriter`.

Modelling conventions:
* Python floats are modelled as rationals (`ℚ`); the trainer counters
  (`epoch_num`, `global_step`, `local_step`) are integers (`ℤ`).
* A Python `dict` is modelled as an insertion-ordered association list:
  writing to an existing key replaces the value in place (keeping the key's
  original position), writing a fresh key appends at the end.  This matches
  CPython semantics for both `d[k] = v` and duplicate keys in dict literals.
* `dist.is_master()` is passed in as an explicit boolean argument.
* Side effects (logging, the filesystem) are returned explicitly: a trigger
  returns the message it logged (if any) together with the updated state.
-/

/-- Python-dict write `d[name] = v` on an insertion-ordered association list:
replaces the value in place when the key is present, else appends. -/
def dictInsert {α : Type} (d : List (String × α)) (name : String) (v : α) :
    List (String × α) :=
  if d.any (fun p => p.1 = name) then
    d.map (fun p => if p.1 = name then (name, v) else p)
  else
    d ++ [(name, v)]

/-- Python-dict read `d.get(name)`: value at the first matching key. -/
def dictGet {α : Type} (d : List (String × α)) (name : String) : Option α :=
  (d.find? (fun p => p.1 = name)).map (fun p => p.2)

/-- Counters exposed by the host trainer (`self.trainer`). -/
structure Trainer where
  epoch_num : ℤ
  global_step : ℤ
  local_step : ℤ
deriving DecidableEq, Repr

/-- Gate of `Writer.add_scalar` / `Writer.add_image` (writers.py lines 19-28):
`if dist.is_master() or not self.master_only: self._add_scalar(...)`.
The hook runs exactly when `is_master ∨ ¬master_only`; otherwise the state is
returned untouched. -/
def Writer.gate {σ : Type} (m_only : Bool) (is_master : Bool)
    (hook : σ → σ) (s : σ) : σ :=
  if is_master || !m_only then hook s else s

/-- Default `Writer._add_image` hook (writers.py line 30-31): `pass`. -/
def Writer.defaultAddImage {σ τ : Type} (s : σ) (_name : String) (_tensor : τ) :
    σ := s

/-- Default `Writer._add_scalar` hook (writers.py line 23-24): `pass`. -/
def Writer.defaultAddScalar {σ : Type} (s : σ) (_name : String) (_scalar : ℚ) :
    σ := s

/-! ### Python's 5-significant-digit general format

`ConsoleWriter._trigger` renders each scalar with the Python format spec
`.5g`: round to 5 significant decimal digits; use fixed notation with
trailing zeros stripped when the decimal exponent lies in `[-4, 4]`, and
scientific notation otherwise.  Scalars are modelled as exact rationals. -/

/-- Round-half-even of the fraction `n / d` (with `d > 0`) to a natural. -/
def rheNat (n d : ℕ) : ℕ :=
  let f := n / d
  let r2 := 2 * (n % d)
  if r2 < d then f
  else if d < r2 then f + 1
  else if f % 2 = 0 then f else f + 1

/-- Decide whether `10 ^ e ≤ a / b` for naturals `a b ≥ 1` and integer `e`. -/
def tenPowLe (e : ℤ) (a b : ℕ) : Bool :=
  if 0 ≤ e then decide (10 ^ e.toNat * b ≤ a)
  else decide (b ≤ a * 10 ^ (-e).toNat)

/-- Fuel-driven floor of the base-10 logarithm: counts divisions by 10. -/
def log10Aux : ℕ → ℕ → ℕ
  | 0, _ => 0
  | fuel + 1, n => if n < 10 then 0 else log10Aux fuel (n / 10) + 1

/-- Floor of the base-10 logarithm of `n` (0 for `n = 0`).  The fuel 400
suffices for every `n < 10 ^ 400`, which covers the numerator and denominator
of every rational value an IEEE-754 double (a Python float) can take. -/
def log10 (n : ℕ) : ℕ := log10Aux 400 n

/-- Decimal exponent of `a / b`: the `e` with `10 ^ e ≤ a / b < 10 ^ (e+1)`. -/
def decExp (a b : ℕ) : ℤ :=
  let e0 : ℤ := (log10 a : ℤ) - (log10 b : ℤ)
  if tenPowLe e0 a b then e0 else e0 - 1

/-- Drop trailing `'0'` characters. -/
def stripZeros (cs : List Char) : List Char :=
  (cs.reverse.dropWhile (fun c => c = '0')).reverse

/-- The five decimal digits of `d` (`10^4 ≤ d < 10^5`), most significant
first. -/
def fiveDigits (d : ℕ) : List Char :=
  [Nat.digitChar (d / 10000 % 10), Nat.digitChar (d / 1000 % 10),
   Nat.digitChar (d / 100 % 10), Nat.digitChar (d / 10 % 10),
   Nat.digitChar (d % 10)]

/-- Exponent field of scientific notation: at least two digits. -/
def expDigits (n : ℕ) : String :=
  if n < 10 then String.mk ['0', Nat.digitChar n] else Nat.repr n

/-- Python's `.5g` format of a rational: 5 significant digits, half-even
rounding, fixed notation with stripped trailing zeros for decimal exponents
in `[-4, 4]`, scientific notation otherwise. -/
def fmt5g (q : ℚ) : String :=
  if q = 0 then "0"
  else
    let a := q.num.natAbs
    let b := q.den
    let e1 := decExp a b
    let scaled : ℕ × ℕ :=
      if e1 ≤ 4 then (a * 10 ^ (4 - e1).toNat, b)
      else (a, b * 10 ^ (e1 - 4).toNat)
    let d0 := rheNat scaled.1 scaled.2
    let d := if d0 = 100000 then 10000 else d0
    let e := if d0 = 100000 then e1 + 1 else e1
    let digs := fiveDigits d
    let body :=
      if -4 ≤ e ∧ e < 5 then
        if 0 ≤ e then
          let ip := digs.take (e.toNat + 1)
          let fp := stripZeros (digs.drop (e.toNat + 1))
          if fp.isEmpty then String.mk ip
          else String.mk ip ++ "." ++ String.mk fp
        else
          "0." ++ String.mk (List.replicate (-e - 1).toNat '0' ++
            stripZeros digs)
      else
        let m := stripZeros digs.tail
        String.mk [digs.headD '0'] ++
          (if m.isEmpty then "" else "." ++ String.mk m) ++
          "e" ++ (if 0 ≤ e then "+" else "-") ++ expDigits e.natAbs
    if q < 0 then "-" ++ body else body

/-! ### ConsoleWriter -/

/-- Modelled from the spec: `NameMatcher` (from `torchpack.utils.matching`,
not part of this source excerpt) is "given a set of glob-style patterns and a
candidate name, returns whether it matches"; we model the matcher abstractly
as a boolean predicate on names. -/
def NameMatcher : Type := String → Bool

/-- Modelled from the spec: "Pattern `*` matches every name" — the matcher
built by `NameMatcher(patterns='*')`, the default of `ConsoleWriter`. -/
def starMatcher : NameMatcher := fun _ => true

/-- State of `ConsoleWriter`: the pattern matcher and the name→value scalar
buffer `self.scalars` (a Python dict, modelled as an ordered assoc list). -/
structure ConsoleWriter where
  matcher : NameMatcher
  scalars : List (String × ℚ)

/-- `ConsoleWriter.master_only = True` (writers.py line 38). -/
def ConsoleWriter.master_only : Bool := true

/-- `ConsoleWriter.__init__(scalars='*')` with an empty buffer. -/
def ConsoleWriter.init (m : NameMatcher) : ConsoleWriter := ⟨m, []⟩

/-- `ConsoleWriter._add_scalar` (writers.py lines 56-57):
`self.scalars[name] = scalar`. -/
def ConsoleWriter.addScalarHook (w : ConsoleWriter) (name : String) (v : ℚ) :
    ConsoleWriter :=
  { w with scalars := dictInsert w.scalars name v }

/-- `ConsoleWriter.add_scalar`: the inherited gated entry point. -/
def ConsoleWriter.addScalar (is_master : Bool) (w : ConsoleWriter)
    (name : String) (v : ℚ) : ConsoleWriter :=
  Writer.gate ConsoleWriter.master_only is_master
    (fun w => w.addScalarHook name v) w

/-- `ConsoleWriter.add_image`: inherited gate around the default no-op
`Writer._add_image` hook (`ConsoleWriter` does not override it). -/
def ConsoleWriter.addImage {τ : Type} (is_master : Bool) (w : ConsoleWriter)
    (name : String) (t : τ) : ConsoleWriter :=
  Writer.gate ConsoleWriter.master_only is_master
    (fun w => Writer.defaultAddImage w name t) w

/-- Python string `<`: strict lexicographic comparison of the Unicode code
point sequences. -/
def charListLt : List Char → List Char → Bool
  | [], [] => false
  | [], _ :: _ => true
  | _ :: _, [] => false
  | a :: as, b :: bs =>
      if a < b then true
      else if a = b then charListLt as bs
      else false

/-- Python string `<` on `String`. -/
def pyStrLt (a b : String) : Bool := charListLt a.data b.data

/-- Comparison used by Python's `sorted(self.scalars.items())`: tuples are
ordered lexicographically, name first, then value. -/
def pyPairLe (a b : String × ℚ) : Bool :=
  if pyStrLt a.1 b.1 then true
  else if a.1 = b.1 then decide (a.2 ≤ b.2)
  else false

/-- Propositional form of `pyPairLe`, the order `sorted` uses. -/
def pyPairLeP (a b : String × ℚ) : Prop := pyPairLe a b = true

instance : DecidableRel pyPairLeP := fun a b => by
  unfold pyPairLeP; infer_instance

/-- Buffer entries surviving the pattern filter of `ConsoleWriter._trigger`,
in the order Python iterates them: `sorted(self.scalars.items())` filtered by
`self.matcher.match(name)` (writers.py lines 49-50).  Python's `sorted` is
modelled by insertion sort: `pyPairLeP` is a total, transitive and
antisymmetric order, so every sorted rearrangement — in particular the one
Python's sort produces — is this one. -/
def ConsoleWriter.flushList (w : ConsoleWriter) : List (String × ℚ) :=
  (List.insertionSort pyPairLeP w.scalars).filter (fun p => w.matcher p.1)

/-- The formatted lines `texts` built by `ConsoleWriter._trigger`
(writers.py line 51), each reading `[name] = value` with the value rendered
by Python's 5-significant-digit general format. -/
def ConsoleWriter.texts (w : ConsoleWriter) : List String :=
  w.flushList.map (fun p => "[" ++ p.1 ++ "] = " ++ fmt5g p.2)

/-- `ConsoleWriter._trigger` (writers.py lines 47-54): formats matching
buffer entries in sorted order, logs them as one message
(`'\n+ '.join([''] + texts)`) when non-empty, then clears the buffer.
Returns the logged message (if any) and the new state. -/
def ConsoleWriter.trigger (w : ConsoleWriter) :
    Option String × ConsoleWriter :=
  let ts := w.texts
  (if ts.isEmpty then none
   else some (String.intercalate "\n+ " ("" :: ts)),
   { w with scalars := [] })

/-- `ConsoleWriter._trigger_epoch` (writers.py lines 44-45): calls
`self._trigger()`. -/
def ConsoleWriter.triggerEpoch (w : ConsoleWriter) :
    Option String × ConsoleWriter :=
  w.trigger

/-! ### TFEventWriter -/

/-- State of `TFEventWriter`: the underlying `SummaryWriter` (an external
library) is modelled by the sequences of scalar and image events forwarded
to it, plus whether it has been closed.  `τ` is the (opaque) tensor type. -/
structure TFEventWriter (τ : Type) where
  scalar_events : List (String × ℚ × ℤ)
  image_events : List (String × τ × ℤ)
  closed : Bool

/-- `TFEventWriter.master_only = True` (writers.py line 64). -/
def TFEventWriter.master_only : Bool := true

/-- `TFEventWriter._add_scalar` (writers.py lines 75-76): forwards
`(name, scalar, trainer.global_step)` directly to the event writer. -/
def TFEventWriter.addScalarHook {τ : Type} (tr : Trainer)
    (w : TFEventWriter τ) (name : String) (v : ℚ) : TFEventWriter τ :=
  { w with scalar_events := w.scalar_events ++ [(name, v, tr.global_step)] }

/-- `TFEventWriter.add_scalar`: the inherited gated entry point. -/
def TFEventWriter.addScalar {τ : Type} (is_master : Bool) (tr : Trainer)
    (w : TFEventWriter τ) (name : String) (v : ℚ) : TFEventWriter τ :=
  Writer.gate TFEventWriter.master_only is_master
    (fun w => w.addScalarHook tr name v) w

/-- `TFEventWriter._add_image` (writers.py lines 78-79): forwards
`(name, tensor, trainer.global_step)` directly to the event writer. -/
def TFEventWriter.addImageHook {τ : Type} (tr : Trainer)
    (w : TFEventWriter τ) (name : String) (t : τ) : TFEventWriter τ :=
  { w with image_events := w.image_events ++ [(name, t, tr.global_step)] }

/-- `TFEventWriter.add_image`: the inherited gated entry point. -/
def TFEventWriter.addImage {τ : Type} (is_master : Bool) (tr : Trainer)
    (w : TFEventWriter τ) (name : String) (t : τ) : TFEventWriter τ :=
  Writer.gate TFEventWriter.master_only is_master
    (fun w => w.addImageHook tr name t) w

/-! ### JSONWriter -/

/-- A JSON scalar value appearing in a summary record: an integer counter or
a floating-point metric value (modelled as a rational). -/
inductive JVal
  | int : ℤ → JVal
  | num : ℚ → JVal
deriving DecidableEq, Repr

/-- A summary record: a Python dict with string keys, serialized to one JSON
object.  Modelled as an insertion-ordered association list. -/
abbrev SummaryRecord : Type := List (String × JVal)

/-- The record built by `JSONWriter._add_scalar` (writers.py lines 112-117):
the dict literal with keys `epoch_num`, `global_step`, `local_step` and
`name`, evaluated left to right — so a `name` equal to one of the counter
keys overwrites that counter (CPython duplicate-key semantics). -/
def mkRecord (tr : Trainer) (name : String) (v : ℚ) : SummaryRecord :=
  dictInsert (dictInsert (dictInsert (dictInsert []
    "epoch_num" (JVal.int tr.epoch_num))
    "global_step" (JVal.int tr.global_step))
    "local_step" (JVal.int tr.local_step))
    name (JVal.num v)

/-- State of `JSONWriter`: the resolved save path and the in-memory
`self.summaries` list. -/
structure JSONWriter where
  save_fname : String
  summaries : List SummaryRecord
deriving DecidableEq, Repr

/-- Modelled from the spec: `JSONWriter` declares no `master_only`
attribute in this file; it inherits the `Callback` base default (not in this
source excerpt), and the spec states `JSONWriter` is "not master-only". -/
def JSONWriter.master_only : Bool := false

/-- `JSONWriter._add_scalar` (writers.py lines 111-117): appends one record
per call to `self.summaries`. -/
def JSONWriter.addScalarHook (tr : Trainer) (w : JSONWriter) (name : String)
    (v : ℚ) : JSONWriter :=
  { w with summaries := w.summaries ++ [mkRecord tr name v] }

/-- `JSONWriter.add_scalar`: the inherited gated entry point
(`master_only = False`, so it always forwards). -/
def JSONWriter.addScalar (is_master : Bool) (tr : Trainer) (w : JSONWriter)
    (name : String) (v : ℚ) : JSONWriter :=
  Writer.gate JSONWriter.master_only is_master
    (fun w => w.addScalarHook tr name v) w

/-- `JSONWriter.add_image`: the inherited gate around the default no-op
`Writer._add_image` hook (`JSONWriter` does not override it). -/
def JSONWriter.addImage {τ : Type} (is_master : Bool) (w : JSONWriter)
    (name : String) (t : τ) : JSONWriter :=
  Writer.gate JSONWriter.master_only is_master
    (fun w => Writer.defaultAddImage w name t) w

/-! ### Filesystem model for the JSON summary file

`io.save` / `io.load` / `osp.exists` live in `torchpack.utils`, outside this
source excerpt; they are modelled from the spec: "generic structured-data
load/save (format: JSON file containing the serialized summary list)", with
an OS/IO error raised on save when the target is unwritable. -/

/-- Modelled from the spec: the filesystem holds, per path, the summary list
serialized to that file, plus a flag saying whether writes succeed. -/
structure FileSys where
  files : List (String × List SummaryRecord)
  writable : Bool
deriving DecidableEq, Repr

/-- Modelled from the spec: `io.save(fname, data)` — rewrites the file
wholesale with the serialized list, or raises an OS/IO error when the target
is unwritable. -/
def ioSave (fs : FileSys) (path : String) (data : List SummaryRecord) :
    Except String FileSys :=
  if fs.writable then Except.ok { fs with files := dictInsert fs.files path data }
  else Except.error "OSError"

/-- Modelled from the spec: `osp.exists(fname)`. -/
def ospExists (fs : FileSys) (path : String) : Bool :=
  (dictGet fs.files path).isSome

/-- Modelled from the spec: `io.load(fname)` — deserializes the summary list
stored at `path` (only called after an existence check). -/
def ioLoad (fs : FileSys) (path : String) : List SummaryRecord :=
  (dictGet fs.files path).getD []

/-- `JSONWriter._before_train` (writers.py lines 92-95): sets
`self.summaries = []`, then, if the summary file exists, replaces the list
wholesale with the file's deserialized contents. -/
def JSONWriter.beforeTrain (fs : FileSys) (w : JSONWriter) : JSONWriter :=
  let w1 := { w with summaries := ([] : List SummaryRecord) }
  if ospExists fs w1.save_fname then
    { w1 with summaries := ioLoad fs w1.save_fname }
  else w1

/-- `JSONWriter._trigger` (writers.py lines 100-106): tries to save the
summaries; on an OS/IO error it catches, logs the error and returns
normally.  Returns the filesystem, the (unchanged) writer state, and the
list of messages logged. -/
def JSONWriter.trigger (fs : FileSys) (w : JSONWriter) :
    FileSys × JSONWriter × List String :=
  match ioSave fs w.save_fname w.summaries with
  | Except.ok fs1 => (fs1, w, [])
  | Except.error _ =>
      (fs, w,
       ["Error occurred when saving JSON file \"" ++ w.save_fname ++ "\"."])

/-- `JSONWriter._trigger_epoch` (writers.py lines 97-98): calls
`self._trigger()`. -/
def JSONWriter.triggerEpoch (fs : FileSys) (w : JSONWriter) :
    FileSys × JSONWriter × List String :=
  JSONWriter.trigger fs w

/-- `JSONWriter._after_train` (writers.py lines 108-109): calls
`self._trigger()`. -/
def JSONWriter.afterTrain (fs : FileSys) (w : JSONWriter) :
    FileSys × JSONWriter × List String :=
  JSONWriter.trigger fs w

/-- A sequence of `add_scalar` calls on a `ConsoleWriter`; each call comes
with the `dist.is_master()` value in effect at call time. -/
def ConsoleWriter.applyCalls (w : ConsoleWriter)
    (calls : List (Bool × String × ℚ)) : ConsoleWriter :=
  calls.foldl (fun w c => ConsoleWriter.addScalar c.1 w c.2.1 c.2.2) w

/-- A sequence of `add_scalar` calls on a `JSONWriter` while the trainer's
counters are fixed. -/
def JSONWriter.applyCalls (is_master : Bool) (tr : Trainer) (w : JSONWriter)
    (calls : List (String × ℚ)) : JSONWriter :=
  calls.foldl (fun w c => JSONWriter.addScalar is_master tr w c.1 c.2) w

/-- Whether an optional JSON value is an integer. -/
def isIntVal : Option JVal → Bool
  | some (JVal.int _) => true
  | _ => false

/-- Whether an optional JSON value is a scalar (floating-point) metric
value. -/
def isNumVal : Option JVal → Bool
  | some (JVal.num _) => true
  | _ => false

/-- The record shape asserted by the spec for every persisted record: integer
values under the three counter keys, a scalar value under the metric name,
and no further keys (four entries in all). -/
def recordHasShape (r : SummaryRecord) (name : String) : Bool :=
  isIntVal (dictGet r "epoch_num") && isIntVal (dictGet r "global_step") &&
    isIntVal (dictGet r "local_step") && isNumVal (dictGet r name) &&
    (r.length == 4)

/-! ### Order properties of the comparator used by `sorted` -/

theorem charListLt_irrefl : ∀ (a : List Char), charListLt a a = false
  | [] => rfl
  | x :: xs => by
      simp only [charListLt, lt_irrefl, if_false, if_pos rfl]
      exact charListLt_irrefl xs

theorem charListLt_asymm :
    ∀ (a b : List Char), charListLt a b = true → charListLt b a = false
  | [], [], h => by simp [charListLt] at h
  | [], _ :: _, _ => rfl
  | _ :: _, [], h => by simp [charListLt] at h
  | x :: xs, y :: ys, h => by
      simp only [charListLt] at h ⊢
      by_cases hxy : x < y
      · have h1 : ¬ y < x := not_lt.mpr (le_of_lt hxy)
        have h2 : ¬ y = x := ne_of_gt hxy
        simp [h1, h2]
      · by_cases hxy2 : x = y
        · subst hxy2
          simp only [lt_irrefl, if_false, if_pos rfl] at h ⊢
          exact charListLt_asymm xs ys h
        · simp [hxy, hxy2] at h

theorem charListLt_conn :
    ∀ (a b : List Char), charListLt a b = false → charListLt b a = false →
      a = b
  | [], [], _, _ => rfl
  | [], _ :: _, h1, _ => by simp [charListLt] at h1
  | _ :: _, [], _, h2 => by simp [charListLt] at h2
  | x :: xs, y :: ys, h1, h2 => by
      simp only [charListLt] at h1 h2
      by_cases hxy : x < y
      · simp [hxy] at h1
      · by_cases hyx : y < x
        · simp [hyx] at h2
        · have hxy2 : x = y := le_antisymm (not_lt.mp hyx) (not_lt.mp hxy)
          subst hxy2
          simp only [lt_irrefl, if_false, if_pos rfl] at h1 h2
          rw [charListLt_conn xs ys h1 h2]

theorem charListLt_trans :
    ∀ (a b c : List Char), charListLt a b = true → charListLt b c = true →
      charListLt a c = true
  | [], [], _, h1, _ => by simp [charListLt] at h1
  | [], _ :: _, [], _, h2 => by simp [charListLt] at h2
  | [], _ :: _, _ :: _, _, _ => rfl
  | _ :: _, [], _, h1, _ => by simp [charListLt] at h1
  | _ :: _, _ :: _, [], _, h2 => by simp [charListLt] at h2
  | x :: xs, y :: ys, z :: zs, h1, h2 => by
      simp only [charListLt] at h1 h2 ⊢
      by_cases hxy : x < y
      · by_cases hyz : y < z
        · simp [lt_trans hxy hyz]
        · by_cases hyz2 : y = z
          · subst hyz2; simp [hxy]
          · simp [hyz, hyz2] at h2
      · by_cases hxy2 : x = y
        · subst hxy2
          simp only [lt_irrefl, if_false, if_pos rfl] at h1
          by_cases hxz : x < z
          · simp [hxz]
          · by_cases hxz2 : x = z
            · subst hxz2
              simp only [lt_irrefl, if_false, if_pos rfl] at h2 ⊢
              exact charListLt_trans xs ys zs h1 h2
            · simp [hxz, hxz2] at h2
        · simp [hxy, hxy2] at h1

theorem pyStrLt_irrefl (a : String) : pyStrLt a a = false :=
  charListLt_irrefl a.data

theorem pyStrLt_asymm {a b : String} (h : pyStrLt a b = true) :
    pyStrLt b a = false :=
  charListLt_asymm a.data b.data h

theorem pyStrLt_conn {a b : String} (h1 : pyStrLt a b = false)
    (h2 : pyStrLt b a = false) : a = b := by
  cases a; cases b
  exact congrArg String.mk (charListLt_conn _ _ h1 h2)

theorem pyStrLt_trans {a b c : String} (h1 : pyStrLt a b = true)
    (h2 : pyStrLt b c = true) : pyStrLt a c = true :=
  charListLt_trans a.data b.data c.data h1 h2

theorem pyPairLe_iff (a b : String × ℚ) :
    pyPairLe a b = true ↔
      pyStrLt a.1 b.1 = true ∨ (a.1 = b.1 ∧ a.2 ≤ b.2) := by
  unfold pyPairLe
  by_cases h1 : pyStrLt a.1 b.1 = true
  · simp [h1]
  · by_cases h2 : a.1 = b.1
    · simp [h1, h2]
    · simp [h1, h2]

instance : IsTotal (String × ℚ) pyPairLeP where
  total a b := by
    unfold pyPairLeP
    rw [pyPairLe_iff, pyPairLe_iff]
    by_cases h1 : pyStrLt a.1 b.1 = true
    · exact Or.inl (Or.inl h1)
    · by_cases h2 : a.1 = b.1
      · rcases le_total a.2 b.2 with h | h
        · exact Or.inl (Or.inr ⟨h2, h⟩)
        · exact Or.inr (Or.inr ⟨h2.symm, h⟩)
      · have h3 : pyStrLt b.1 a.1 = true := by
          rcases Bool.eq_false_or_eq_true (pyStrLt b.1 a.1) with h | h
          · exact h
          · exact absurd (pyStrLt_conn (Bool.eq_false_iff.mpr h1) h) h2
        exact Or.inr (Or.inl h3)

instance : IsTrans (String × ℚ) pyPairLeP where
  trans a b c h1 h2 := by
    unfold pyPairLeP at h1 h2 ⊢
    rw [pyPairLe_iff] at h1 h2 ⊢
    rcases h1 with h1 | ⟨h1e, h1v⟩
    · rcases h2 with h2 | ⟨h2e, _⟩
      · exact Or.inl (pyStrLt_trans h1 h2)
      · exact Or.inl (h2e ▸ h1)
    · rcases h2 with h2 | ⟨h2e, h2v⟩
      · exact Or.inl (h1e ▸ h2)
      · exact Or.inr ⟨h1e.trans h2e, le_trans h1v h2v⟩

instance : IsAntisymm (String × ℚ) pyPairLeP where
  antisymm a b h1 h2 := by
    unfold pyPairLeP at h1 h2
    rw [pyPairLe_iff] at h1 h2
    rcases h1 with h1 | ⟨h1e, h1v⟩
    · rcases h2 with h2 | ⟨h2e, _⟩
      · rw [pyStrLt_asymm h1] at h2; exact absurd h2 (by simp)
      · rw [h2e] at h1; rw [pyStrLt_irrefl] at h1
        exact absurd h1 (by simp)
    · rcases h2 with h2 | ⟨_, h2v⟩
      · rw [h1e] at h2; rw [pyStrLt_irrefl] at h2
        exact absurd h2 (by simp)
      · exact Prod.ext h1e (le_antisymm h1v h2v)

/-! ### Dictionary and record lemmas -/

theorem dictGet_cons_eq {α : Type} (d : List (String × α)) (k : String)
    (v : α) : dictGet ((k, v) :: d) k = some v := by
  simp [dictGet, List.find?]

theorem dictGet_cons_ne {α : Type} (p : String × α) (d : List (String × α))
    (k : String) (h : p.1 ≠ k) : dictGet (p :: d) k = dictGet d k := by
  simp [dictGet, List.find?, h]

theorem dictGet_dictInsert_self {α : Type} :
    ∀ (d : List (String × α)) (k : String) (v : α),
      dictGet (dictInsert d k v) k = some v
  | [], k, v => by simp [dictInsert, dictGet, List.find?]
  | p :: d, k, v => by
      by_cases hp : p.1 = k
      · simp [dictInsert, dictGet, List.find?, hp]
      · have ih := dictGet_dictInsert_self d k v
        by_cases hd : d.any (fun q => q.1 = k) = true
        · have hcond : (p :: d).any (fun q => q.1 = k) = true := by
            simp [List.any, hd]
          have hmap : dictInsert d k v =
              d.map (fun q => if q.1 = k then (k, v) else q) := by
            simp [dictInsert, hd]
          have hstep : dictInsert (p :: d) k v =
              p :: d.map (fun q => if q.1 = k then (k, v) else q) := by
            simp [dictInsert, hcond, hp]
          rw [hstep, dictGet_cons_ne p _ k hp, ← hmap]
          exact ih
        · have hcond : (p :: d).any (fun q => q.1 = k) = false := by
            rw [List.any_cons, Bool.or_eq_false_iff]
            exact ⟨decide_eq_false hp, Bool.eq_false_iff.mpr hd⟩
          have hmap : dictInsert d k v = d ++ [(k, v)] := by
            simp [dictInsert, hd]
          have hstep : dictInsert (p :: d) k v = p :: (d ++ [(k, v)]) := by
            simp [dictInsert, hcond]
          rw [hstep, dictGet_cons_ne p _ k hp, ← hmap]
          exact ih

theorem mkRecord_eq (tr : Trainer) (name : String) (v : ℚ)
    (h1 : name ≠ "epoch_num") (h2 : name ≠ "global_step")
    (h3 : name ≠ "local_step") :
    mkRecord tr name v =
      [("epoch_num", JVal.int tr.epoch_num),
       ("global_step", JVal.int tr.global_step),
       ("local_step", JVal.int tr.local_step),
       (name, JVal.num v)] := by
  simp [mkRecord, dictInsert, Ne.symm h1, Ne.symm h2, Ne.symm h3]

theorem JSONWriter.addScalar_eq (b : Bool) (tr : Trainer) (w : JSONWriter)
    (name : String) (v : ℚ) :
    JSONWriter.addScalar b tr w name v = w.addScalarHook tr name v := by
  cases b <;> rfl

theorem JSONWriter.applyCalls_summaries (b : Bool) (tr : Trainer) :
    ∀ (calls : List (String × ℚ)) (w : JSONWriter),
      (JSONWriter.applyCalls b tr w calls).summaries =
        w.summaries ++ calls.map (fun c => mkRecord tr c.1 c.2)
  | [], w => by simp [JSONWriter.applyCalls]
  | c :: cs, w => by
      have step : JSONWriter.applyCalls b tr w (c :: cs) =
          JSONWriter.applyCalls b tr
            (JSONWriter.addScalar b tr w c.1 c.2) cs := rfl
      rw [step, JSONWriter.applyCalls_summaries b tr cs,
        JSONWriter.addScalar_eq]
      simp [JSONWriter.addScalarHook]

/-! ### Claims -/

/-- C1: for every writer with `master_only = True` (`ConsoleWriter`,
`TFEventWriter`), `add_scalar` / `add_image` on a non-primary distributed
participant is a no-op (the hook is not invoked — the state equals the input
for every possible hook — and no state changes); on the primary participant,
or for any writer with `master_only` false (`JSONWriter`), the call forwards
to the `_add_scalar` / `_add_image` hook. -/
theorem writer_masterOnly_gating {σ τ₁ τ₂ : Type} (hook : σ → σ) (s : σ)
    (b : Bool) (wc : ConsoleWriter) (wt : TFEventWriter τ₁) (wj : JSONWriter)
    (tr : Trainer) (name : String) (v : ℚ) (t : τ₁) (ti : τ₂) :
    Writer.gate true false hook s = s ∧
    Writer.gate true true hook s = hook s ∧
    Writer.gate false b hook s = hook s ∧
    ConsoleWriter.master_only = true ∧
    TFEventWriter.master_only = true ∧
    JSONWriter.master_only = false ∧
    ConsoleWriter.addScalar false wc name v = wc ∧
    ConsoleWriter.addScalar true wc name v = wc.addScalarHook name v ∧
    ConsoleWriter.addImage false wc name ti = wc ∧
    TFEventWriter.addScalar false tr wt name v = wt ∧
    TFEventWriter.addScalar true tr wt name v = wt.addScalarHook tr name v ∧
    TFEventWriter.addImage false tr wt name t = wt ∧
    TFEventWriter.addImage true tr wt name t = wt.addImageHook tr name t ∧
    JSONWriter.addScalar b tr wj name v = wj.addScalarHook tr name v := by
  refine ⟨rfl, rfl, ?_, rfl, rfl, rfl, rfl, rfl, rfl, rfl, rfl, rfl, rfl,
    ?_⟩ <;> cases b <;> rfl

/-- C2: after any sequence of `add_scalar` calls on a `ConsoleWriter`, a
`_trigger` (or `_trigger_epoch`) call leaves the name-to-value buffer empty,
regardless of the matcher and of whether any buffered entry matched. -/
theorem consoleTrigger_clears_buffer (w : ConsoleWriter)
    (calls : List (Bool × String × ℚ)) :
    ((w.applyCalls calls).trigger).2.scalars = [] ∧
    ((w.applyCalls calls).triggerEpoch).2.scalars = [] ∧
    (w.applyCalls calls).triggerEpoch = (w.applyCalls calls).trigger :=
  ⟨rfl, rfl, rfl⟩

/-- C3: when the target is unwritable, `JSONWriter._trigger` returns
normally (it is a total function): the OS error is caught, exactly one error
message is logged, and neither the filesystem nor the in-memory summaries
list changes. -/
theorem jsonTrigger_save_error_swallowed
    (files : List (String × List SummaryRecord)) (w : JSONWriter) :
    JSONWriter.trigger ⟨files, false⟩ w =
      (⟨files, false⟩, w,
       ["Error occurred when saving JSON file \"" ++ w.save_fname ++ "\"."]) ∧
    (JSONWriter.trigger ⟨files, false⟩ w).2.1.summaries = w.summaries :=
  ⟨rfl, rfl⟩

/-- C4: a successful `JSONWriter._trigger` save followed by
`_before_train` on a fresh writer bound to the same file path restores an
equal summaries list, order and content preserved. -/
theorem jsonWriter_roundTrip (files : List (String × List SummaryRecord))
    (fname : String) (summs s0 : List SummaryRecord) :
    (JSONWriter.beforeTrain (JSONWriter.trigger ⟨files, true⟩
        ⟨fname, summs⟩).1 ⟨fname, s0⟩).summaries = summs ∧
    (JSONWriter.trigger ⟨files, true⟩ ⟨fname, summs⟩).2.1.summaries =
      summs := by
  constructor
  · have hsave : (JSONWriter.trigger ⟨files, true⟩ ⟨fname, summs⟩).1 =
        ⟨dictInsert files fname summs, true⟩ := rfl
    have hget : dictGet (dictInsert files fname summs) fname = some summs :=
      dictGet_dictInsert_self files fname summs
    rw [hsave]
    simp [JSONWriter.beforeTrain, ospExists, ioLoad, hget]
  · rfl

/-- C6: `JSONWriter._before_train` first empties the summaries list and then
replaces it wholesale with the file's deserialized contents exactly when a
summary file exists at the resolved path; with no file the list stays empty.
The previous in-memory list `s` never survives. -/
theorem jsonBeforeTrain_loads_file (files : List (String × List SummaryRecord))
    (b : Bool) (fname : String) (s : List SummaryRecord) :
    (JSONWriter.beforeTrain ⟨files, b⟩ ⟨fname, s⟩).summaries =
      (dictGet files fname).getD [] ∧
    (JSONWriter.beforeTrain ⟨files, b⟩ ⟨fname, s⟩).save_fname = fname := by
  cases h : dictGet files fname <;>
    simp [JSONWriter.beforeTrain, ospExists, ioLoad, h]

/-- C10: `add_image` on the writers that keep the default `_add_image` hook
(`ConsoleWriter`, `JSONWriter`) is a no-op for every input: the image is
discarded and the state (console buffer, summaries list) is unchanged. -/
theorem addImage_noop {τ : Type} (b : Bool) (w : ConsoleWriter)
    (wj : JSONWriter) (name : String) (t : τ) :
    ConsoleWriter.addImage b w name t = w ∧
    JSONWriter.addImage b wj name t = wj := by
  cases b <;> exact ⟨rfl, rfl⟩

/-- C5, counterexample: a single `add_scalar` call (distinct names hold
trivially) whose metric name is the counter key `epoch_num` appends a record
that does NOT carry the trainer's `epoch_num = 1`: the dict literal's
duplicate key makes the scalar overwrite the counter, leaving a three-key
record. -/
theorem json_addScalar_counterKey_overwrites :
    (JSONWriter.addScalar true ⟨1, 10, 2⟩ ⟨"scalars.json", []⟩ "epoch_num"
        (mkRat 9 10)).summaries =
      [[("epoch_num", JVal.num (mkRat 9 10)), ("global_step", JVal.int 10),
        ("local_step", JVal.int 2)]] ∧
    dictGet ((JSONWriter.addScalar true ⟨1, 10, 2⟩ ⟨"scalars.json", []⟩
        "epoch_num" (mkRat 9 10)).summaries.headD []) "epoch_num" ≠
      some (JVal.int 1) := by
  exact ⟨by decide, by decide⟩

/-- C5 (amended: the distinct metric names must also differ from the three
counter keys): after `N` `add_scalar` calls with such names while the
trainer's counters are fixed, the summaries list grows by exactly `N`
records, appended in call order with no overwriting, each carrying the
trainer's `epoch_num` / `global_step` / `local_step` together with that
call's name/value pair. -/
theorem json_applyCalls_appends (b : Bool) (tr : Trainer) (w : JSONWriter)
    (calls : List (String × ℚ))
    (hnd : (calls.map Prod.fst).Nodup)
    (hck : ∀ p ∈ calls, p.1 ≠ "epoch_num" ∧ p.1 ≠ "global_step" ∧
      p.1 ≠ "local_step") :
    (JSONWriter.applyCalls b tr w calls).summaries =
      w.summaries ++ calls.map (fun c => mkRecord tr c.1 c.2) ∧
    (JSONWriter.applyCalls b tr w calls).summaries.length =
      w.summaries.length + calls.length ∧
    ∀ p ∈ calls,
      dictGet (mkRecord tr p.1 p.2) "epoch_num" =
        some (JVal.int tr.epoch_num) ∧
      dictGet (mkRecord tr p.1 p.2) "global_step" =
        some (JVal.int tr.global_step) ∧
      dictGet (mkRecord tr p.1 p.2) "local_step" =
        some (JVal.int tr.local_step) ∧
      dictGet (mkRecord tr p.1 p.2) p.1 = some (JVal.num p.2) := by
  refine ⟨JSONWriter.applyCalls_summaries b tr calls w, ?_, ?_⟩
  · rw [JSONWriter.applyCalls_summaries b tr calls w]
    simp
  · intro p hp
    obtain ⟨h1, h2, h3⟩ := hck p hp
    rw [mkRecord_eq tr p.1 p.2 h1 h2 h3]
    refine ⟨?_, ?_, ?_, ?_⟩ <;>
      simp [dictGet, List.find?, Ne.symm h1, Ne.symm h2, Ne.symm h3]

/-- C5, witness: two calls with fresh distinct names at fixed counters grow
the empty summaries list to length two. -/
theorem json_applyCalls_appends_holds :
    (([("acc", mkRat 9 10), ("loss", mkRat 1 2)] :
        List (String × ℚ)).map Prod.fst).Nodup ∧
    (∀ p ∈ ([("acc", mkRat 9 10), ("loss", mkRat 1 2)] :
        List (String × ℚ)), p.1 ≠ "epoch_num" ∧ p.1 ≠ "global_step" ∧
      p.1 ≠ "local_step") ∧
    (JSONWriter.applyCalls true ⟨1, 10, 2⟩ ⟨"scalars.json", []⟩
        [("acc", mkRat 9 10), ("loss", mkRat 1 2)]).summaries.length =
      (JSONWriter.mk "scalars.json" []).summaries.length +
        ([("acc", mkRat 9 10), ("loss", mkRat 1 2)] :
          List (String × ℚ)).length :=
  ⟨by decide, by decide,
    (json_applyCalls_appends true ⟨1, 10, 2⟩ ⟨"scalars.json", []⟩
      [("acc", mkRat 9 10), ("loss", mkRat 1 2)] (by decide)
      (by decide)).2.1⟩

/-- C7: the entries a `ConsoleWriter` trigger emits appear in lexicographic
order of metric name, and two buffers holding the same name/value pairs (in
any order) produce the same flush list, the same formatted lines and the
same logged message; moreover a repeated `add_scalar` to a name overwrites
the buffered value (last write wins). -/
theorem consoleTrigger_sorted_orderInsensitive (w1 w2 : ConsoleWriter)
    (hm : w1.matcher = w2.matcher) (hp : w1.scalars.Perm w2.scalars) :
    w1.flushList = w2.flushList ∧
    w1.texts = w2.texts ∧
    w1.trigger.1 = w2.trigger.1 ∧
    List.Pairwise (fun a b : String => pyStrLt b a = false)
      (w1.flushList.map Prod.fst) ∧
    ∀ (buf : List (String × ℚ)) (n : String) (v : ℚ),
      dictGet (dictInsert buf n v) n = some v := by
  have hs1 : List.Sorted pyPairLeP (List.insertionSort pyPairLeP w1.scalars) :=
    List.sorted_insertionSort pyPairLeP w1.scalars
  have hs2 : List.Sorted pyPairLeP (List.insertionSort pyPairLeP w2.scalars) :=
    List.sorted_insertionSort pyPairLeP w2.scalars
  have hperm : (List.insertionSort pyPairLeP w1.scalars).Perm
      (List.insertionSort pyPairLeP w2.scalars) :=
    (List.perm_insertionSort pyPairLeP w1.scalars).trans
      (hp.trans (List.perm_insertionSort pyPairLeP w2.scalars).symm)
  have hsortEq : List.insertionSort pyPairLeP w1.scalars =
      List.insertionSort pyPairLeP w2.scalars :=
    List.eq_of_perm_of_sorted hperm hs1 hs2
  have hflush : w1.flushList = w2.flushList := by
    unfold ConsoleWriter.flushList
    rw [hsortEq, hm]
  have htexts : w1.texts = w2.texts := by
    unfold ConsoleWriter.texts
    rw [hflush]
  refine ⟨hflush, htexts, ?_, ?_, ?_⟩
  · unfold ConsoleWriter.trigger
    rw [htexts]
  · have hpf : List.Pairwise pyPairLeP w1.flushList :=
      List.Pairwise.filter _ hs1
    refine List.Pairwise.map Prod.fst ?_ hpf
    intro a b hab
    unfold pyPairLeP at hab
    rw [pyPairLe_iff] at hab
    rcases hab with hab | ⟨hab, _⟩
    · exact pyStrLt_asymm hab
    · rw [hab]
      exact pyStrLt_irrefl b.1
  · intro buf n v
    exact dictGet_dictInsert_self buf n v

/-- C7, witness: two buffers with the same two entries in opposite insertion
orders produce the same formatted lines. -/
theorem consoleTrigger_sorted_orderInsensitive_holds :
    ([("b", mkRat 1 3), ("a", mkRat 1 2)] :
        List (String × ℚ)).Perm [("a", mkRat 1 2), ("b", mkRat 1 3)] ∧
    (ConsoleWriter.mk starMatcher [("b", mkRat 1 3), ("a", mkRat 1 2)]).texts =
      (ConsoleWriter.mk starMatcher
        [("a", mkRat 1 2), ("b", mkRat 1 3)]).texts :=
  ⟨by decide,
    (consoleTrigger_sorted_orderInsensitive
      (ConsoleWriter.mk starMatcher [("b", mkRat 1 3), ("a", mkRat 1 2)])
      (ConsoleWriter.mk starMatcher [("a", mkRat 1 2), ("b", mkRat 1 3)])
      rfl (by decide)).2.1⟩

/-- C8: `add_scalar("loss", 0.12345678)` on a `ConsoleWriter` with
`scalars='*'` followed by a trigger logs a single-entry message whose entry
reads `[loss] = 0.12346` — the value is rendered with 5 significant
digits. -/
theorem consoleTrigger_scenario_fiveSigDigits :
    (ConsoleWriter.addScalar true (ConsoleWriter.init starMatcher) "loss"
        (mkRat 12345678 100000000)).texts = ["[loss] = 0.12346"] ∧
    (ConsoleWriter.trigger (ConsoleWriter.addScalar true
        (ConsoleWriter.init starMatcher) "loss"
        (mkRat 12345678 100000000))).1 =
      some ("\n+ " ++ "[loss] = 0.12346") ∧
    fmt5g (mkRat 12345678 100000000) = "0.12346" := by
  exact ⟨by decide, by decide, by decide⟩

/-- C9, counterexample: with the metric name `epoch_num`, the record
persisted to `scalars.json` has only three keys and no integer `epoch_num`
value, so it is not an object with integer counter keys plus exactly one
additional scalar-metric pair. -/
theorem json_persisted_record_shape_fails :
    dictGet (JSONWriter.trigger ⟨[], true⟩ (JSONWriter.addScalar true
        ⟨1, 10, 2⟩ ⟨"scalars.json", []⟩ "epoch_num"
        (mkRat 9 10))).1.files "scalars.json" =
      some [[("epoch_num", JVal.num (mkRat 9 10)),
        ("global_step", JVal.int 10), ("local_step", JVal.int 2)]] ∧
    recordHasShape [("epoch_num", JVal.num (mkRat 9 10)),
      ("global_step", JVal.int 10), ("local_step", JVal.int 2)]
      "epoch_num" = false := by
  exact ⟨by decide, by decide⟩

/-- C9 (amended: for every metric name distinct from the three counter
keys): every record built by `add_scalar` has integer `epoch_num`,
`global_step` and `local_step` keys plus exactly one additional
scalar-metric pair (four keys in all), and a successful trigger persists the
in-memory records verbatim to the summary file. -/
theorem json_persisted_record_shape (tr : Trainer) (name : String) (v : ℚ)
    (h1 : name ≠ "epoch_num") (h2 : name ≠ "global_step")
    (h3 : name ≠ "local_step")
    (files : List (String × List SummaryRecord)) (w : JSONWriter) :
    recordHasShape (mkRecord tr name v) name = true ∧
    dictGet (JSONWriter.trigger ⟨files, true⟩ w).1.files w.save_fname =
      some w.summaries := by
  constructor
  · rw [mkRecord_eq tr name v h1 h2 h3]
    simp [recordHasShape, dictGet, List.find?, isIntVal, isNumVal,
      Ne.symm h1, Ne.symm h2, Ne.symm h3]
  · have hsave : (JSONWriter.trigger ⟨files, true⟩ w).1 =
        ⟨dictInsert files w.save_fname w.summaries, true⟩ := rfl
    rw [hsave]
    exact dictGet_dictInsert_self files w.save_fname w.summaries

/-- C9, witness: the shape holds for the fresh metric name `acc`. -/
theorem json_persisted_record_shape_holds :
    ("acc" : String) ≠ "epoch_num" ∧
    recordHasShape (mkRecord ⟨1, 10, 2⟩ "acc" (mkRat 9 10)) "acc" = true :=
  ⟨by decide,
    (json_persisted_record_shape ⟨1, 10, 2⟩ "acc" (mkRat 9 10) (by decide)
      (by decide) (by decide) [] ⟨"scalars.json", []⟩).1⟩
